import Mathlib

/-!
Verification of the jsFader effect core (src/lib.rs).

Shallow embedding: f32 values are idealized as real numbers, except where the
non-finite values (NaN and the infinities) decide behavior, which are modelled
by the marker constructor F32.nonfin.  The lookup tables, the generic linear
interpolation and the per-buffer processing loop are translated definition by
definition from the source; line references point into src/lib.rs.
-/

noncomputable section

namespace JsFader

/-- An f32 value: either a finite real, or a non-finite value (NaN and the
infinities are not distinguished; no claim needs to tell them apart). -/
inductive F32 where
  | fin (x : ℝ)
  | nonfin

/-- The finite value carried by an f32; the non-finite marker maps to zero. -/
def F32.toReal : F32 → ℝ
  | .fin x => x
  | .nonfin => 0

/-- Source fn non_finite_to_zero (src/lib.rs:312-318): a finite sample passes
through unchanged, NaN and the infinities are replaced by F::zero().  The
result is always finite, so it is exactly F32.toReal. -/
def non_finite_to_zero (v : F32) : ℝ := v.toReal

/-- IEEE f32 division by a buffer-length divisor (src/lib.rs:73-74): a zero
divisor yields NaN or an infinity (collapsed to F32.nonfin); a nonzero divisor
yields the exact quotient (rounding idealized away). -/
def fdiv (a : ℝ) (n : ℕ) : F32 := if n = 0 then F32.nonfin else F32.fin (a / n)

/-- Source pattern .max(0.0).min(1.0) (src/lib.rs:77-78). -/
def clamp01 (x : ℝ) : ℝ := min (max x 0) 1

/-- The ramped control value after n iterations of the per-sample loop: each
iteration first adds the delta and clamps to the unit interval
(src/lib.rs:76-78). -/
def rampSeq (start delta : ℝ) : ℕ → ℝ
  | 0 => start
  | n + 1 => clamp01 (rampSeq start delta n + delta)

/-- Source fn sinusoidal_pan (src/lib.rs:253-255).  For the table arguments the
base sin(...) is nonnegative, where Real.rpow agrees with f32 powf. -/
def sinusoidal_pan (pan law : ℝ) : ℝ :=
  (Real.sin (0.5 * Real.pi * (1 - pan))) ^ (law / 3 : ℝ)

/-- Source fn root_pan (src/lib.rs:257-259). -/
def root_pan (pan law : ℝ) : ℝ := ((1 : ℝ) - pan) ^ (law / 6 : ℝ)

/-- Source const PAN_TAPERS (src/lib.rs:261-265): entry 0 is the sinusoidal
taper, entry 1 the root taper. -/
def PAN_TAPERS (t : ℕ) : ℝ → ℝ → ℝ := if t = 0 then sinusoidal_pan else root_pan

/-- Source const PAN_LAWS (src/lib.rs:267-272): the laws 3, 4.5 and 6 dB. -/
def PAN_LAWS (l : ℕ) : ℝ := if l = 0 then 3 else if l = 1 then 4.5 else 6

/-- Source static PAN_LUT (src/lib.rs:289-302): for taper t and law l, entries
0..200 sample the taper at index/200, and entry 201 duplicates entry 200
(expressed below by clipping the index with min). -/
def PAN_LUT (t l : ℕ) : List ℝ :=
  (List.range 202).map fun j => PAN_TAPERS t (((min j 200 : ℕ) : ℝ) / 200) (PAN_LAWS l)

/-- Source static VOLUME_LUT (src/lib.rs:275-288). -/
def VOLUME_LUT : List ℝ :=
  [0, (10 : ℝ) ^ (-2.25 : ℝ), (10 : ℝ) ^ (-1.5 : ℝ), (10 : ℝ) ^ (-1 : ℝ),
   (10 : ℝ) ^ (-0.5 : ℝ), (10 : ℝ) ^ (-0.25 : ℝ), 1, (10 : ℝ) ^ (0.25 : ℝ),
   (10 : ℝ) ^ (0.5 : ℝ), (10 : ℝ) ^ (0.5 : ℝ)]

/-- The index the interpolated lookup reads (with its successor): the cast
`t as usize` of src/lib.rs:307 truncates toward zero and saturates at 0 for
negative arguments, which is Nat.floor. -/
def lookup_index (lut : List ℝ) (pos : ℝ) : ℕ :=
  ⌊((lut.length - 2 : ℕ) : ℝ) * pos⌋₊

/-- Source fn lookup_interpolated (src/lib.rs:305-310).  Out-of-range reads
(which the Rust code would turn into a panic) default to 0; the in-range
theorem below shows the defaults are never consulted for positions in [0,1]
on a table of length at least 2. -/
def lookup_interpolated (lut : List ℝ) (pos : ℝ) : ℝ :=
  let t := ((lut.length - 2 : ℕ) : ℝ) * pos
  let index := lookup_index lut pos
  let f := t - (index : ℝ)
  (1 - f) * lut.getD index 0 + f * lut.getD (index + 1) 0

/-- Source struct FaderEffectParameterStorage (src/lib.rs:141-147). -/
structure FaderEffectParameterStorage where
  volume : ℝ
  pan : ℝ
  pan_taper : ℝ
  pan_law : ℝ

/-- The mutable per-instance processor state (src/lib.rs:24-28): the smoothed
volume and pan applied to the most recently processed sample. -/
structure FaderEffect where
  current_volume : ℝ
  current_pan : ℝ

/-- Source impl Default for FaderEffect (src/lib.rs:30-38): the sentinel -1
marks the state as uninitialized. -/
def faderDefault : FaderEffect := ⟨-1, -1⟩

/-- Source impl Default for FaderEffectParameters (src/lib.rs:153-164). -/
def storageDefault : FaderEffectParameterStorage := ⟨0.75, 0.5, 0, 0.5⟩

/-- Taper selection (src/lib.rs:48): (pan_taper * 2.0) as usize, clipped to 1.
The f32-to-usize cast truncates toward zero and saturates below at 0, which is
Nat.floor on reals. -/
def taper_index (ps : FaderEffectParameterStorage) : ℕ := min ⌊ps.pan_taper * 2⌋₊ 1

/-- Law selection (src/lib.rs:49): (pan_law * 3.0) as usize, clipped to 2. -/
def law_index (ps : FaderEffectParameterStorage) : ℕ := min ⌊ps.pan_law * 3⌋₊ 2

/-- The pan curve chosen by the parameter snapshot (src/lib.rs:48-49). -/
def pan_curve (ps : FaderEffectParameterStorage) : List ℝ :=
  PAN_LUT (taper_index ps) (law_index ps)

/-- Ramp start selection (src/lib.rs:52-63): a negative stored value is the
uninitialized sentinel, in which case the ramp starts at the target. -/
def ramp_start (current target : ℝ) : ℝ := if current < 0 then target else current

/-- The volume the ramp starts from (src/lib.rs:52-56). -/
def start_volume (fx : FaderEffect) (ps : FaderEffectParameterStorage) : ℝ :=
  ramp_start fx.current_volume ps.volume

/-- The pan the ramp starts from (src/lib.rs:59-63). -/
def start_pan (fx : FaderEffect) (ps : FaderEffectParameterStorage) : ℝ :=
  ramp_start fx.current_pan ps.pan

/-- The per-sample volume increment (src/lib.rs:73): an f32 division performed
unconditionally, with the buffer length as divisor. -/
def volume_delta (fx : FaderEffect) (ps : FaderEffectParameterStorage)
    (num_samples : ℕ) : F32 :=
  fdiv (ps.volume - start_volume fx ps) num_samples

/-- The per-sample pan increment (src/lib.rs:74). -/
def pan_delta (fx : FaderEffect) (ps : FaderEffectParameterStorage)
    (num_samples : ℕ) : F32 :=
  fdiv (ps.pan - start_pan fx ps) num_samples

/-- The smoothed volume applied at sample k (zero based): the loop advances the
value before using it (src/lib.rs:77), so sample k sees k+1 increments.  The
toReal extraction of the delta is only consulted when the loop body runs, that
is when num_samples is positive and the delta is finite. -/
def applied_volume (fx : FaderEffect) (ps : FaderEffectParameterStorage)
    (num_samples k : ℕ) : ℝ :=
  rampSeq (start_volume fx ps) (volume_delta fx ps num_samples).toReal (k + 1)

/-- The smoothed pan applied at sample k (src/lib.rs:78). -/
def applied_pan (fx : FaderEffect) (ps : FaderEffectParameterStorage)
    (num_samples k : ℕ) : ℝ :=
  rampSeq (start_pan fx ps) (pan_delta fx ps num_samples).toReal (k + 1)

/-- The value written to output channel ch at sample index k, given the
smoothed volume and pan of that sample (src/lib.rs:80-104): paired channels
get the volume gain times the left or right pan gain, an unpaired last channel
gets the volume gain alone, all further output channels get silence.  Inputs
are sanitized by non_finite_to_zero before the multiply (src/lib.rs:88-89). -/
def output_sample (pan_lut : List ℝ) (volume pan : ℝ) (inputs : List (List F32))
    (num_channels ch k : ℕ) : ℝ :=
  let volume_gain := lookup_interpolated VOLUME_LUT volume
  let channel_pairs := num_channels / 2
  if ch < 2 * channel_pairs then
    let g :=
      if ch % 2 = 0 then volume_gain * lookup_interpolated pan_lut pan
      else volume_gain * lookup_interpolated pan_lut (1 - pan)
    g * non_finite_to_zero ((inputs.getD ch []).getD k F32.nonfin)
  else if ch < num_channels then
    volume_gain * non_finite_to_zero ((inputs.getD ch []).getD k F32.nonfin)
  else 0

/-- Source fn process_internal (src/lib.rs:41-106).  The parameter snapshot is
read once; the state is overwritten with the targets (src/lib.rs:57,64); the
output is the per-channel, per-sample matrix written by the loop.  num_channels
is the minimum of the input and output channel counts (src/lib.rs:70). -/
def process_internal (fx : FaderEffect) (ps : FaderEffectParameterStorage)
    (inputs : List (List F32)) (num_outputs num_samples : ℕ) :
    FaderEffect × List (List ℝ) :=
  (⟨ps.volume, ps.pan⟩,
   (List.range num_outputs).map fun ch =>
     (List.range num_samples).map fun k =>
       output_sample (pan_curve ps) (applied_volume fx ps num_samples k)
         (applied_pan fx ps num_samples k) inputs
         (min inputs.length num_outputs) ch k)

/-- Truncation toward zero of a real: the semantics of the Rust cast as i32
for finite in-range arguments (src/lib.rs:187-188). -/
def truncTowardZero (x : ℝ) : ℤ := if 0 ≤ x then ⌊x⌋ else ⌈x⌉

/-- Source fn get_parameter (src/lib.rs:167-180); the panic on an invalid
index is modelled by returning none. -/
def get_parameter (s : FaderEffectParameterStorage) (index : ℤ) : Option ℝ :=
  if index = 0 then some s.volume
  else if index = 1 then some s.pan
  else if index = 2 then some s.pan_taper
  else if index = 3 then some s.pan_law
  else none

/-- Source fn set_parameter (src/lib.rs:182-195); the panic on an invalid
index is modelled by returning none.  Indices 2 and 3 quantize the incoming
value before storing it. -/
def set_parameter (s : FaderEffectParameterStorage) (index : ℤ) (value : ℝ) :
    Option FaderEffectParameterStorage :=
  if index = 0 then some { s with volume := value }
  else if index = 1 then some { s with pan := value }
  else if index = 2 then
    some { s with pan_taper := min (max ((truncTowardZero (value * 2) : ℤ) : ℝ) 0) 1 }
  else if index = 3 then
    some { s with pan_law := min (max (((truncTowardZero (value * 3) : ℤ) : ℝ) / 2) 0) 1 }
  else none

/-- A set followed by a get of the same index. -/
def set_get (s : FaderEffectParameterStorage) (index : ℤ) (value : ℝ) : Option ℝ :=
  (set_parameter s index value).bind fun s2 => get_parameter s2 index

/-! ### Helper lemmas -/

theorem F32.toReal_fdiv (a : ℝ) {n : ℕ} (h : n ≠ 0) : (fdiv a n).toReal = a / n := by
  simp [fdiv, h, F32.toReal]

theorem rampSeq_eq (s d : ℝ) :
    ∀ n : ℕ, (∀ j : ℕ, j ≤ n → 0 ≤ s + j * d ∧ s + j * d ≤ 1) →
      rampSeq s d n = s + n * d := by
  intro n
  induction n with
  | zero => intro _; simp [rampSeq]
  | succ n ih =>
    intro hb
    have hn := ih fun j hj => hb j (Nat.le_succ_of_le hj)
    have hb1 := hb (n + 1) le_rfl
    push_cast at hb1
    simp only [rampSeq, hn, clamp01]
    have hx : s + (n : ℝ) * d + d = s + ((n : ℝ) + 1) * d := by ring
    rw [hx, max_eq_left (by linarith [hb1.1]), min_eq_left (by linarith [hb1.2])]
    push_cast
    ring

theorem ramp_bound {s v : ℝ} (hs0 : 0 ≤ s) (hs1 : s ≤ 1) (hv0 : 0 ≤ v) (hv1 : v ≤ 1)
    {N : ℕ} (hN : 0 < N) {j : ℕ} (hj : j ≤ N) :
    0 ≤ s + (j : ℝ) * ((v - s) / N) ∧ s + (j : ℝ) * ((v - s) / N) ≤ 1 := by
  have hNpos : (0 : ℝ) < N := by exact_mod_cast hN
  have ha0 : 0 ≤ (j : ℝ) / N := by positivity
  have ha1 : (j : ℝ) / N ≤ 1 := by
    rw [div_le_one hNpos]
    exact_mod_cast hj
  have key : s + (j : ℝ) * ((v - s) / N) = (1 - (j : ℝ) / N) * s + ((j : ℝ) / N) * v := by
    field_simp
    ring
  constructor
  · rw [key]; nlinarith
  · rw [key]; nlinarith

theorem rampSeq_linear {s v : ℝ} (hs0 : 0 ≤ s) (hs1 : s ≤ 1) (hv0 : 0 ≤ v) (hv1 : v ≤ 1)
    {N n : ℕ} (hN : 0 < N) (hn : n ≤ N) :
    rampSeq s ((v - s) / N) n = s + (n : ℝ) * ((v - s) / N) :=
  rampSeq_eq s _ n fun _ hj => ramp_bound hs0 hs1 hv0 hv1 hN (le_trans hj hn)

/-- Evaluation principle: once the floor of the scaled position is known, the
interpolated lookup is a plain affine combination of two table reads. -/
theorem lookup_eval (lut : List ℝ) (pos : ℝ) (i : ℕ)
    (hfloor : ⌊((lut.length - 2 : ℕ) : ℝ) * pos⌋₊ = i) :
    lookup_interpolated lut pos =
      (1 - (((lut.length - 2 : ℕ) : ℝ) * pos - (i : ℝ))) * lut.getD i 0 +
        (((lut.length - 2 : ℕ) : ℝ) * pos - (i : ℝ)) * lut.getD (i + 1) 0 := by
  simp [lookup_interpolated, lookup_index, hfloor]

/-- A table whose knots are monotonically non-decreasing. -/
def KnotsMono (lut : List ℝ) : Prop :=
  ∀ i j : ℕ, i ≤ j → j < lut.length → lut.getD i 0 ≤ lut.getD j 0

theorem knotsMono_of_consec {lut : List ℝ}
    (h : ∀ i : ℕ, i + 1 < lut.length → lut.getD i 0 ≤ lut.getD (i + 1) 0) :
    KnotsMono lut := by
  intro i j hij hj
  induction j with
  | zero =>
    have hi0 : i = 0 := Nat.le_zero.mp hij
    simp [hi0]
  | succ j ih =>
    rcases Nat.eq_or_lt_of_le hij with h1 | h1
    · rw [h1]
    · exact le_trans (ih (Nat.lt_succ_iff.mp h1) (by omega)) (h j hj)

/-- Monotonicity of piecewise-linear interpolation over a monotone index map. -/
theorem interp_mono (g : ℕ → ℝ) (m : ℕ)
    (hg : ∀ a b : ℕ, a ≤ b → b ≤ m + 1 → g a ≤ g b)
    {t u : ℝ} (ht : 0 ≤ t) (htu : t ≤ u) (hu : u ≤ (m : ℝ)) :
    (1 - (t - (⌊t⌋₊ : ℝ))) * g ⌊t⌋₊ + (t - (⌊t⌋₊ : ℝ)) * g (⌊t⌋₊ + 1) ≤
      (1 - (u - (⌊u⌋₊ : ℝ))) * g ⌊u⌋₊ + (u - (⌊u⌋₊ : ℝ)) * g (⌊u⌋₊ + 1) := by
  have hu0 : 0 ≤ u := le_trans ht htu
  have hit : (⌊t⌋₊ : ℝ) ≤ t := Nat.floor_le ht
  have hti : t < (⌊t⌋₊ : ℝ) + 1 := Nat.lt_floor_add_one t
  have hju : (⌊u⌋₊ : ℝ) ≤ u := Nat.floor_le hu0
  have huj : u < (⌊u⌋₊ : ℝ) + 1 := Nat.lt_floor_add_one u
  have hij : ⌊t⌋₊ ≤ ⌊u⌋₊ := Nat.floor_mono htu
  have hjm : ⌊u⌋₊ ≤ m := by
    have h1 := Nat.floor_mono hu
    rwa [Nat.floor_natCast] at h1
  rcases Nat.eq_or_lt_of_le hij with heq | hlt
  · rw [heq] at hit hti ⊢
    have hgi : g ⌊u⌋₊ ≤ g (⌊u⌋₊ + 1) := hg _ _ (by omega) (by omega)
    nlinarith [mul_nonneg (sub_nonneg.mpr htu) (sub_nonneg.mpr hgi)]
  · have hgi : g ⌊t⌋₊ ≤ g (⌊t⌋₊ + 1) := hg _ _ (by omega) (by omega)
    have h1 : (1 - (t - (⌊t⌋₊ : ℝ))) * g ⌊t⌋₊ + (t - (⌊t⌋₊ : ℝ)) * g (⌊t⌋₊ + 1) ≤
        g (⌊t⌋₊ + 1) := by nlinarith [sub_nonneg.mpr hit]
    have h2 : g (⌊t⌋₊ + 1) ≤ g ⌊u⌋₊ := hg _ _ (by omega) (by omega)
    have hgj : g ⌊u⌋₊ ≤ g (⌊u⌋₊ + 1) := hg _ _ (by omega) (by omega)
    have h3 : g ⌊u⌋₊ ≤
        (1 - (u - (⌊u⌋₊ : ℝ))) * g ⌊u⌋₊ + (u - (⌊u⌋₊ : ℝ)) * g (⌊u⌋₊ + 1) := by
      nlinarith [sub_nonneg.mpr hju]
    linarith

theorem lookup_interpolated_mono {lut : List ℝ} (h2 : 2 ≤ lut.length)
    (hm : KnotsMono lut) {p q : ℝ} (hp : 0 ≤ p) (hpq : p ≤ q) (hq : q ≤ 1) :
    lookup_interpolated lut p ≤ lookup_interpolated lut q := by
  have key := interp_mono (fun i => lut.getD i 0) (lut.length - 2)
    (fun a b hab hb => hm a b hab (by omega))
    (t := ((lut.length - 2 : ℕ) : ℝ) * p) (u := ((lut.length - 2 : ℕ) : ℝ) * q)
    (mul_nonneg (Nat.cast_nonneg _) hp)
    (mul_le_mul_of_nonneg_left hpq (Nat.cast_nonneg _))
    (mul_le_of_le_one_right (Nat.cast_nonneg _) hq)
  simpa [lookup_interpolated, lookup_index] using key

theorem VOLUME_LUT_length : VOLUME_LUT.length = 10 := rfl

theorem VOLUME_LUT_knotsMono : KnotsMono VOLUME_LUT := by
  apply knotsMono_of_consec
  intro i hi
  rw [VOLUME_LUT_length] at hi
  have hi8 : i ≤ 8 := by omega
  have h10 : (1 : ℝ) < 10 := by norm_num
  interval_cases i <;>
    simp only [VOLUME_LUT, List.getD_cons_zero, List.getD_cons_succ] <;>
    first
      | positivity
      | exact le_rfl
      | (rw [Real.rpow_le_rpow_left_iff h10]; norm_num)
      | (exact Real.rpow_le_one_of_one_le_of_nonpos (by norm_num) (by norm_num))
      | (exact Real.one_le_rpow (by norm_num) (by norm_num))

theorem rampSeq_const {s : ℝ} (hs0 : 0 ≤ s) (hs1 : s ≤ 1) (n : ℕ) : rampSeq s 0 n = s := by
  have h := rampSeq_eq s 0 n fun j _ => by simpa using ⟨hs0, hs1⟩
  simpa using h

theorem start_volume_of_nonneg {fx : FaderEffect} (ps : FaderEffectParameterStorage)
    (hs0 : 0 ≤ fx.current_volume) : start_volume fx ps = fx.current_volume := by
  simp [start_volume, ramp_start, not_lt.mpr hs0]

theorem applied_volume_formula (fx : FaderEffect) (ps : FaderEffectParameterStorage)
    {N : ℕ} (hN : 1 ≤ N) (hs0 : 0 ≤ fx.current_volume) (hs1 : fx.current_volume ≤ 1)
    (hv0 : 0 ≤ ps.volume) (hv1 : ps.volume ≤ 1) {k : ℕ} (hk : k < N) :
    applied_volume fx ps N k =
      fx.current_volume + ((k : ℝ) + 1) * ((ps.volume - fx.current_volume) / N) := by
  have hsv := start_volume_of_nonneg ps hs0
  have hd : (volume_delta fx ps N).toReal = (ps.volume - fx.current_volume) / N := by
    rw [volume_delta, hsv, F32.toReal_fdiv _ (by omega)]
  rw [applied_volume, hsv, hd, rampSeq_linear hs0 hs1 hv0 hv1 (by omega) (by omega)]
  push_cast
  ring

theorem PAN_LUT_getD (t l j : ℕ) (hj : j < 202) :
    (PAN_LUT t l).getD j 0 =
      PAN_TAPERS t (((min j 200 : ℕ) : ℝ) / 200) (PAN_LAWS l) := by
  simp [PAN_LUT, List.getD_eq_getElem?_getD, List.getElem?_map, List.getElem?_range, hj]

theorem process_output_entry (fx : FaderEffect) (ps : FaderEffectParameterStorage)
    (inputs : List (List F32)) (no N ch k : ℕ) (hch : ch < no) (hk : k < N) :
    ((process_internal fx ps inputs no N).2.getD ch []).getD k 0 =
      output_sample (pan_curve ps) (applied_volume fx ps N k) (applied_pan fx ps N k)
        inputs (min inputs.length no) ch k := by
  simp [process_internal, List.getD_eq_getElem?_getD, List.getElem?_map,
    List.getElem?_range, hch, hk]

/-! ### Claims -/

/-- C1: for a buffer of numSamples = N >= 1, with stored smoothed volume s in
[0,1] (hence not the sentinel) and target volume v in [0,1], processing applies
at sample k the volume s + (k+1)(v-s)/N, the per-sample volume sequence is
strictly increasing when v > s, and after the call the stored smoothed volume
equals the target v exactly. -/
theorem C1_linear_volume_ramp (fx : FaderEffect) (ps : FaderEffectParameterStorage)
    (N : ℕ) (hN : 1 ≤ N)
    (hs0 : 0 ≤ fx.current_volume) (hs1 : fx.current_volume ≤ 1)
    (hv0 : 0 ≤ ps.volume) (hv1 : ps.volume ≤ 1) :
    (∀ k, k < N → applied_volume fx ps N k =
      fx.current_volume + ((k : ℝ) + 1) * ((ps.volume - fx.current_volume) / N)) ∧
    (fx.current_volume < ps.volume → ∀ k, k + 1 < N →
      applied_volume fx ps N k < applied_volume fx ps N (k + 1)) ∧
    (∀ inputs num_outputs,
      (process_internal fx ps inputs num_outputs N).1.current_volume = ps.volume) := by
  refine ⟨fun k hk => applied_volume_formula fx ps hN hs0 hs1 hv0 hv1 hk, ?_, fun _ _ => rfl⟩
  intro hsv k hk
  rw [applied_volume_formula fx ps hN hs0 hs1 hv0 hv1 (by omega),
    applied_volume_formula fx ps hN hs0 hs1 hv0 hv1 (by omega)]
  have hNpos : (0 : ℝ) < N := by positivity
  have hdpos : 0 < (ps.volume - fx.current_volume) / N := by
    apply div_pos (by linarith) hNpos
  push_cast
  nlinarith

/-- Witness for C1 at s = 1/5, v = 4/5, N = 4, sample 0. -/
theorem C1_linear_volume_ramp_witness :
    (1 : ℕ) ≤ 4 ∧
    applied_volume ⟨1/5, 1/2⟩ ⟨4/5, 1/2, 0, 1/2⟩ 4 0 = 1/5 + (0 + 1) * ((4/5 - 1/5) / 4) := by
  refine ⟨by norm_num, ?_⟩
  have h := (C1_linear_volume_ramp ⟨1/5, 1/2⟩ ⟨4/5, 1/2, 0, 1/2⟩ 4 (by norm_num)
    (by norm_num) (by norm_num) (by norm_num) (by norm_num)).1 0 (by norm_num)
  simpa using h

/-- C2 counterexample: with numSamples = 0 the ramp-delta division of
src/lib.rs:73 is still performed; its divisor is zero, so the f32 result is
non-finite.  The division is neither guarded nor skipped. -/
theorem C2_division_by_zero_performed :
    volume_delta ⟨1/5, 1/2⟩ ⟨4/5, 1/2, 0, 1/2⟩ 0 = F32.nonfin := rfl

/-- C2 amended: with numSamples = 0 the ramp-delta divisions are still
performed with a zero divisor, yielding non-finite f32 deltas, but they are
never used: the per-sample loop runs zero times, every output channel receives
no sample, and the call completes, with the state still snapping to the
targets. -/
theorem C2_zero_length_buffer_no_op (fx : FaderEffect)
    (ps : FaderEffectParameterStorage) (inputs : List (List F32)) (num_outputs : ℕ) :
    (process_internal fx ps inputs num_outputs 0).2 =
      List.replicate num_outputs ([] : List ℝ) ∧
    (process_internal fx ps inputs num_outputs 0).1 = ⟨ps.volume, ps.pan⟩ ∧
    volume_delta fx ps 0 = F32.nonfin ∧ pan_delta fx ps 0 = F32.nonfin := by
  refine ⟨?_, rfl, rfl, rfl⟩
  simp [process_internal, List.map_const']

/-- C3 counterexample: the volume lookup at position 6/9 is not 1.  The
interpolation maps [0,1] onto 8 segments, so knot 6 (the unity knot) sits at
position 6/8, not 6/9; at 6/9 the lookup lands inside segment 5 and returns a
value strictly below 1. -/
theorem C3_unity_not_at_six_ninths : lookup_interpolated VOLUME_LUT (6/9) ≠ 1 := by
  have heval : lookup_interpolated VOLUME_LUT (6/9) =
      (2/3) * (10 : ℝ) ^ (-0.25 : ℝ) + 1/3 := by
    rw [lookup_eval VOLUME_LUT (6/9) 5 (by norm_num [VOLUME_LUT, Nat.floor_eq_iff])]
    norm_num [VOLUME_LUT]
  have hlt : (10 : ℝ) ^ (-0.25 : ℝ) < 1 :=
    Real.rpow_lt_one_of_one_lt_of_neg (by norm_num) (by norm_num)
  rw [heval]
  intro hcontra
  linarith

/-- C3 amended: lookup(volumeTable, 0) = 0, lookup(volumeTable, 6/8) = 1
(unity gain at knot 6, which the 8-segment interpolation places at position
6/8), and the interpolated volume curve is monotonically non-decreasing in
position over [0,1]. -/
theorem C3_volume_curve :
    lookup_interpolated VOLUME_LUT 0 = 0 ∧
    lookup_interpolated VOLUME_LUT (6/8) = 1 ∧
    ∀ p q : ℝ, 0 ≤ p → p ≤ q → q ≤ 1 →
      lookup_interpolated VOLUME_LUT p ≤ lookup_interpolated VOLUME_LUT q := by
  refine ⟨?_, ?_, ?_⟩
  · rw [lookup_eval VOLUME_LUT 0 0 (by norm_num [VOLUME_LUT])]
    norm_num [VOLUME_LUT]
  · rw [lookup_eval VOLUME_LUT (6/8) 6 (by norm_num [VOLUME_LUT, Nat.floor_eq_iff])]
    norm_num [VOLUME_LUT]
  · intro p q hp hpq hq
    exact lookup_interpolated_mono (by rw [VOLUME_LUT_length]; omega)
      VOLUME_LUT_knotsMono hp hpq hq

/-- Witness for C3 monotonicity at 1/4 and 1/2. -/
theorem C3_volume_curve_witness :
    (0 : ℝ) ≤ 1/4 ∧
    lookup_interpolated VOLUME_LUT (1/4) ≤ lookup_interpolated VOLUME_LUT (1/2) :=
  ⟨by norm_num, C3_volume_curve.2.2 (1/4) (1/2) (by norm_num) (by norm_num) (by norm_num)⟩

/-- C4 counterexample: knot 1 of the volume table is 10 to the power -2.25,
not 10 to the power of the listed dB step -22.5. -/
theorem C4_knot_formula_mismatch : VOLUME_LUT.getD 1 0 ≠ (10 : ℝ) ^ (-22.5 : ℝ) := by
  have h1 : VOLUME_LUT.getD 1 0 = (10 : ℝ) ^ (-2.25 : ℝ) := rfl
  have hlt : (10 : ℝ) ^ (-22.5 : ℝ) < (10 : ℝ) ^ (-2.25 : ℝ) := by
    rw [Real.rpow_lt_rpow_left_iff (by norm_num)]
    norm_num
  rw [h1]
  exact hlt.ne'

/-- C4 amended: the volume table has exactly 10 knots, knot 0 is 0, knots 1
through 8 equal 10 ^ (dBStep(i) / 10) for the dB steps -22.5, -15, -10, -5,
-2.5, 0, +2.5, +5 (so unity gain at knot 6), and knot 9 equals knot 8. -/
theorem C4_volume_table :
    VOLUME_LUT.length = 10 ∧
    VOLUME_LUT.getD 0 0 = 0 ∧
    VOLUME_LUT.getD 1 0 = (10 : ℝ) ^ ((-22.5 : ℝ) / 10) ∧
    VOLUME_LUT.getD 2 0 = (10 : ℝ) ^ ((-15 : ℝ) / 10) ∧
    VOLUME_LUT.getD 3 0 = (10 : ℝ) ^ ((-10 : ℝ) / 10) ∧
    VOLUME_LUT.getD 4 0 = (10 : ℝ) ^ ((-5 : ℝ) / 10) ∧
    VOLUME_LUT.getD 5 0 = (10 : ℝ) ^ ((-2.5 : ℝ) / 10) ∧
    VOLUME_LUT.getD 6 0 = (10 : ℝ) ^ ((0 : ℝ) / 10) ∧
    VOLUME_LUT.getD 6 0 = 1 ∧
    VOLUME_LUT.getD 7 0 = (10 : ℝ) ^ ((2.5 : ℝ) / 10) ∧
    VOLUME_LUT.getD 8 0 = (10 : ℝ) ^ ((5 : ℝ) / 10) ∧
    VOLUME_LUT.getD 9 0 = VOLUME_LUT.getD 8 0 := by
  have h0 : VOLUME_LUT.getD 6 0 = (10 : ℝ) ^ ((0 : ℝ) / 10) := by
    rw [show ((0 : ℝ) / 10) = (0 : ℝ) by norm_num, Real.rpow_zero]
    rfl
  refine ⟨rfl, rfl, ?_, ?_, ?_, ?_, ?_, h0, rfl, ?_, ?_, rfl⟩ <;>
    · show (10 : ℝ) ^ _ = (10 : ℝ) ^ _
      congr 1
      norm_num

/-- C5: for every law index l (laws 3, 4.5, 6 dB) and every knot j in 0..200
at position p = j/200, the sine-taper table entry is sin(pi/2 (1-p)) to the
power law/3 and the root-taper entry is (1-p) to the power law/6; knot 201
duplicates knot 200 for both tapers. -/
theorem C5_pan_tables (l j : ℕ) (hl : l < 3) (hj : j ≤ 200) :
    (PAN_LAWS l = 3 ∨ PAN_LAWS l = 4.5 ∨ PAN_LAWS l = 6) ∧
    (PAN_LUT 0 l).getD j 0 =
      Real.sin (Real.pi / 2 * (1 - (j : ℝ) / 200)) ^ (PAN_LAWS l / 3 : ℝ) ∧
    (PAN_LUT 1 l).getD j 0 = ((1 : ℝ) - (j : ℝ) / 200) ^ (PAN_LAWS l / 6 : ℝ) ∧
    (PAN_LUT 0 l).getD 201 0 = (PAN_LUT 0 l).getD 200 0 ∧
    (PAN_LUT 1 l).getD 201 0 = (PAN_LUT 1 l).getD 200 0 := by
  refine ⟨?_, ?_, ?_, ?_, ?_⟩
  · interval_cases l <;> norm_num [PAN_LAWS]
  · rw [PAN_LUT_getD 0 l j (by omega), min_eq_left hj]
    have ht : PAN_TAPERS 0 = sinusoidal_pan := by simp [PAN_TAPERS]
    rw [ht]
    unfold sinusoidal_pan
    congr 2
    ring
  · rw [PAN_LUT_getD 1 l j (by omega), min_eq_left hj]
    have ht : PAN_TAPERS 1 = root_pan := by simp [PAN_TAPERS]
    rw [ht]
    rfl
  · rw [PAN_LUT_getD 0 l 201 (by omega), PAN_LUT_getD 0 l 200 (by omega)]
    norm_num
  · rw [PAN_LUT_getD 1 l 201 (by omega), PAN_LUT_getD 1 l 200 (by omega)]
    norm_num

/-- Witness for C5 at law 0 and knot 100. -/
theorem C5_pan_tables_witness :
    (0 : ℕ) < 3 ∧
    ((PAN_LAWS 0 = 3 ∨ PAN_LAWS 0 = 4.5 ∨ PAN_LAWS 0 = 6) ∧
     (PAN_LUT 0 0).getD 100 0 =
       Real.sin (Real.pi / 2 * (1 - (100 : ℝ) / 200)) ^ (PAN_LAWS 0 / 3 : ℝ) ∧
     (PAN_LUT 1 0).getD 100 0 = ((1 : ℝ) - (100 : ℝ) / 200) ^ (PAN_LAWS 0 / 6 : ℝ) ∧
     (PAN_LUT 0 0).getD 201 0 = (PAN_LUT 0 0).getD 200 0 ∧
     (PAN_LUT 1 0).getD 201 0 = (PAN_LUT 1 0).getD 200 0) :=
  ⟨by norm_num, C5_pan_tables 0 100 (by norm_num) (by norm_num)⟩

/-- C6: for every table of length at least 2 and position in [0,1], the
interpolated lookup reads only the index pair (idx, idx+1) with idx+1 at most
len-1, so even position 1.0 stays in bounds; and when the last two knots are
equal (as in the tables of this program) the lookup at 1.0 returns the last
knot exactly. -/
theorem C6_lookup_in_bounds (lut : List ℝ) (pos : ℝ) (h2 : 2 ≤ lut.length)
    (h0 : 0 ≤ pos) (h1 : pos ≤ 1) :
    lookup_index lut pos + 1 ≤ lut.length - 1 ∧
    (lut.getD (lut.length - 1) 0 = lut.getD (lut.length - 2) 0 →
      lookup_interpolated lut 1 = lut.getD (lut.length - 1) 0) := by
  constructor
  · have hb : ((lut.length - 2 : ℕ) : ℝ) * pos ≤ ((lut.length - 2 : ℕ) : ℝ) :=
      mul_le_of_le_one_right (Nat.cast_nonneg _) h1
    have hfl := Nat.floor_mono hb
    rw [Nat.floor_natCast] at hfl
    have hidx : lookup_index lut pos ≤ lut.length - 2 := hfl
    omega
  · intro hd
    rw [lookup_eval lut 1 (lut.length - 2) (by rw [mul_one, Nat.floor_natCast])]
    rw [mul_one, sub_self, hd]
    ring

/-- Witness for C6 on the volume table at position 1. -/
theorem C6_lookup_in_bounds_witness :
    2 ≤ VOLUME_LUT.length ∧
    lookup_index VOLUME_LUT 1 + 1 ≤ VOLUME_LUT.length - 1 ∧
    lookup_interpolated VOLUME_LUT 1 = VOLUME_LUT.getD (VOLUME_LUT.length - 1) 0 := by
  have h := C6_lookup_in_bounds VOLUME_LUT 1 (by rw [VOLUME_LUT_length]; omega)
    (by norm_num) (by norm_num)
  exact ⟨by rw [VOLUME_LUT_length]; omega, h.1, h.2 rfl⟩

/-- C7: a freshly constructed processor carries the sentinel -1, so the first
call starts both ramps at the target values: the deltas are exactly zero,
every sample applies the target volume and pan unchanged, and the whole first
buffer is produced with that constant gain. -/
theorem C7_first_call_snap (ps : FaderEffectParameterStorage)
    (inputs : List (List F32)) (num_outputs N : ℕ) (hN : 1 ≤ N)
    (hv0 : 0 ≤ ps.volume) (hv1 : ps.volume ≤ 1)
    (hp0 : 0 ≤ ps.pan) (hp1 : ps.pan ≤ 1) :
    volume_delta faderDefault ps N = F32.fin 0 ∧
    pan_delta faderDefault ps N = F32.fin 0 ∧
    (∀ k, applied_volume faderDefault ps N k = ps.volume ∧
      applied_pan faderDefault ps N k = ps.pan) ∧
    (process_internal faderDefault ps inputs num_outputs N).2 =
      (List.range num_outputs).map fun ch => (List.range N).map fun k =>
        output_sample (pan_curve ps) ps.volume ps.pan inputs
          (min inputs.length num_outputs) ch k := by
  have hsv : start_volume faderDefault ps = ps.volume := by
    norm_num [start_volume, ramp_start, faderDefault]
  have hsp : start_pan faderDefault ps = ps.pan := by
    norm_num [start_pan, ramp_start, faderDefault]
  have hdv : volume_delta faderDefault ps N = F32.fin 0 := by
    cases N with
    | zero => omega
    | succ n => simp [volume_delta, fdiv, hsv]
  have hdp : pan_delta faderDefault ps N = F32.fin 0 := by
    cases N with
    | zero => omega
    | succ n => simp [pan_delta, fdiv, hsp]
  have hav : ∀ k, applied_volume faderDefault ps N k = ps.volume := by
    intro k
    rw [applied_volume, hsv, hdv]
    exact rampSeq_const hv0 hv1 _
  have hap : ∀ k, applied_pan faderDefault ps N k = ps.pan := by
    intro k
    rw [applied_pan, hsp, hdp]
    exact rampSeq_const hp0 hp1 _
  refine ⟨hdv, hdp, fun k => ⟨hav k, hap k⟩, ?_⟩
  simp only [process_internal]
  apply List.map_congr_left
  intro ch _
  apply List.map_congr_left
  intro k _
  rw [hav k, hap k]

/-- Witness for C7 with target volume 1/2, target pan 1/2, two samples. -/
theorem C7_first_call_snap_witness :
    (1 : ℕ) ≤ 2 ∧
    volume_delta faderDefault ⟨1/2, 1/2, 0, 1/2⟩ 2 = F32.fin 0 ∧
    ∀ k, applied_volume faderDefault ⟨1/2, 1/2, 0, 1/2⟩ 2 k = (1/2 : ℝ) := by
  have h := C7_first_call_snap ⟨1/2, 1/2, 0, 1/2⟩ [] 0 2 (by norm_num)
    (by norm_num) (by norm_num) (by norm_num) (by norm_num)
  exact ⟨by norm_num, h.1, fun k => (h.2.2.1 k).1⟩

/-- C8: a non-finite input sample (NaN or an infinity) on any channel yields
output 0 at that channel and sample: the value is replaced by zero before the
gain multiply, so non-finite values never propagate to the output. -/
theorem C8_nonfinite_input_zero_output (fx : FaderEffect)
    (ps : FaderEffectParameterStorage) (inputs : List (List F32)) (no N ch k : ℕ)
    (hch : ch < no) (hk : k < N)
    (hin : (inputs.getD ch []).getD k F32.nonfin = F32.nonfin) :
    ((process_internal fx ps inputs no N).2.getD ch []).getD k 0 = 0 := by
  rw [process_output_entry fx ps inputs no N ch k hch hk]
  simp only [output_sample]
  split_ifs <;>
    first
      | rfl
      | (rw [hin]; simp [non_finite_to_zero, F32.toReal])

/-- Witness for C8: a single NaN sample on a mono channel pair produces 0. -/
theorem C8_nonfinite_input_zero_output_witness :
    (0 : ℕ) < 1 ∧
    ((process_internal faderDefault storageDefault [[F32.nonfin]] 1 1).2.getD 0 []).getD 0 0
      = 0 :=
  ⟨by norm_num,
   C8_nonfinite_input_zero_output faderDefault storageDefault [[F32.nonfin]] 1 1 0 0
     (by norm_num) (by norm_num) rfl⟩

/-- C9: with numChannels = min(inputs, outputs), an odd numChannels sends the
unpaired last channel the volume gain only (no pan gain, independent of pan),
and every output channel at index numChannels or above is written as silence
regardless of input content. -/
theorem C9_channel_layout (fx : FaderEffect) (ps : FaderEffectParameterStorage)
    (inputs : List (List F32)) (no N ch k : ℕ) (hk : k < N) (hch : ch < no) :
    ((min inputs.length no) % 2 = 1 → ch = min inputs.length no - 1 →
      ((process_internal fx ps inputs no N).2.getD ch []).getD k 0 =
        lookup_interpolated VOLUME_LUT (applied_volume fx ps N k) *
          non_finite_to_zero ((inputs.getD ch []).getD k F32.nonfin)) ∧
    (min inputs.length no ≤ ch →
      ((process_internal fx ps inputs no N).2.getD ch []).getD k 0 = 0) := by
  constructor
  · intro hodd hch2
    rw [process_output_entry fx ps inputs no N ch k hch hk]
    set nc := min inputs.length no with hnc
    simp only [output_sample]
    split_ifs with h1 h2 h3
    · omega
    · omega
    · rfl
    · omega
  · intro hge
    rw [process_output_entry fx ps inputs no N ch k hch hk]
    set nc := min inputs.length no with hnc
    simp only [output_sample]
    split_ifs with h1 h2 h3
    · omega
    · omega
    · omega
    · rfl

/-- Witness for C9 with 3 input channels and 4 output channels: channel 2 is
the unpaired center channel, channel 3 is silence. -/
theorem C9_channel_layout_witness :
    (2 : ℕ) < 4 ∧
    ((process_internal faderDefault storageDefault
        [[F32.fin 1], [F32.fin 1], [F32.fin 1]] 4 1).2.getD 2 []).getD 0 0 =
      lookup_interpolated VOLUME_LUT (applied_volume faderDefault storageDefault 1 0) *
        non_finite_to_zero (([[F32.fin 1], [F32.fin 1], [F32.fin 1]].getD 2 []).getD 0
          F32.nonfin) ∧
    ((process_internal faderDefault storageDefault
        [[F32.fin 1], [F32.fin 1], [F32.fin 1]] 4 1).2.getD 3 []).getD 0 0 = 0 :=
  ⟨by norm_num,
   (C9_channel_layout faderDefault storageDefault
     [[F32.fin 1], [F32.fin 1], [F32.fin 1]] 4 1 2 0 (by norm_num) (by norm_num)).1
     rfl rfl,
   (C9_channel_layout faderDefault storageDefault
     [[F32.fin 1], [F32.fin 1], [F32.fin 1]] 4 1 3 0 (by norm_num) (by norm_num)).2
     (by norm_num)⟩

/-- C10: setScalar then getScalar is the identity for indices 0 (volume) and
1 (pan); for index 2 (panTaper) the stored value is value*2 truncated toward
zero then clamped to [0,1], hence in 0 or 1; for index 3 (panLaw) it is
value*3 truncated toward zero, halved, then clamped, hence in 0, 1/2 or 1;
at value 3/10 neither round trip is the identity. -/
theorem C10_parameter_round_trip (s : FaderEffectParameterStorage) (v : ℝ) :
    set_get s 0 v = some v ∧
    set_get s 1 v = some v ∧
    set_get s 2 v = some (min (max ((truncTowardZero (v * 2) : ℤ) : ℝ) 0) 1) ∧
    set_get s 3 v = some (min (max (((truncTowardZero (v * 3) : ℤ) : ℝ) / 2) 0) 1) ∧
    (min (max ((truncTowardZero (v * 2) : ℤ) : ℝ) 0) 1 = 0 ∨
     min (max ((truncTowardZero (v * 2) : ℤ) : ℝ) 0) 1 = 1) ∧
    (min (max (((truncTowardZero (v * 3) : ℤ) : ℝ) / 2) 0) 1 = 0 ∨
     min (max (((truncTowardZero (v * 3) : ℤ) : ℝ) / 2) 0) 1 = 1/2 ∨
     min (max (((truncTowardZero (v * 3) : ℤ) : ℝ) / 2) 0) 1 = 1) ∧
    set_get s 2 (3/10) ≠ some ((3 : ℝ)/10) ∧
    set_get s 3 (3/10) ≠ some ((3 : ℝ)/10) := by
  have ht2 : truncTowardZero ((3 : ℝ)/5) = 0 := by
    norm_num [truncTowardZero, Int.floor_eq_zero_iff, Set.mem_Ico]
  have ht3 : truncTowardZero ((9 : ℝ)/10) = 0 := by
    norm_num [truncTowardZero, Int.floor_eq_zero_iff, Set.mem_Ico]
  refine ⟨by simp [set_get, set_parameter, get_parameter],
    by simp [set_get, set_parameter, get_parameter],
    by simp [set_get, set_parameter, get_parameter],
    by simp [set_get, set_parameter, get_parameter], ?_, ?_, ?_, ?_⟩
  · rcases le_or_lt (truncTowardZero (v * 2)) 0 with h | h
    · left
      have hc : ((truncTowardZero (v * 2) : ℤ) : ℝ) ≤ 0 := by exact_mod_cast h
      rw [max_eq_right hc, min_eq_left (by norm_num)]
    · right
      have hc : (1 : ℝ) ≤ ((truncTowardZero (v * 2) : ℤ) : ℝ) := by
        exact_mod_cast h
      rw [max_eq_left (by linarith), min_eq_right (by linarith)]
  · rcases le_or_lt (truncTowardZero (v * 3)) 0 with h | h
    · left
      have hc : ((truncTowardZero (v * 3) : ℤ) : ℝ) ≤ 0 := by exact_mod_cast h
      rw [max_eq_right (by linarith), min_eq_left (by norm_num)]
    · rcases eq_or_lt_of_le h with h1 | h1
      · right; left
        have hc : ((truncTowardZero (v * 3) : ℤ) : ℝ) = 1 := by exact_mod_cast h1.symm
        rw [hc]
        norm_num
      · right; right
        have h2 : (2 : ℤ) ≤ truncTowardZero (v * 3) := h1
        have hc : (2 : ℝ) ≤ ((truncTowardZero (v * 3) : ℤ) : ℝ) := by exact_mod_cast h2
        rw [max_eq_left (by linarith), min_eq_right (by linarith)]
  · simp only [set_get, set_parameter, get_parameter]
    norm_num [ht2]
  · simp only [set_get, set_parameter, get_parameter]
    norm_num [ht3]

end JsFader
